import Mathlib

/-!
# Verification of the HalalLens fetch-classify-persist pipeline

Shallow embedding of the HalalLens crawler/ETL/persistence code
(src/crawler/bse_ann.py, src/crawler/nse_ann.py,
src/etl/financial_data_processor.py, src/etl/minio_client.py,
src/database/database_manager.py) together with proofs about the
embedded definitions.

Modelling conventions:
* Python strings are Lean `String`s; all scanning is done on `String.data`.
* `datetime` values are modelled by the `DateTime` structure below (naive
  fields; the code pins everything to UTC, so the timezone carries no
  information that any claim depends on).
* The database tables are association lists keyed by the composite primary
  key `(symbol, filing_date)`; `INSERT ... ON CONFLICT (symbol, filing_date)
  DO UPDATE` is the `upsertA` operation, and a transaction rollback is
  modelled by returning `Except.error` without a table (the caller keeps the
  pre-transaction table).
* Network and object-store effects are oracles passed in as explicit
  function arguments (`DlEnv`), so the request/retry code is a pure function
  of those oracles.
-/

namespace HalalLens

/-- A `datetime.datetime` (or `date`, with the time fields zero). The code
always works with UTC-pinned values, so no offset field is carried. -/
structure DateTime where
  year : Nat
  month : Nat
  day : Nat
  hour : Nat
  minute : Nat
  second : Nat
  microsecond : Nat
deriving DecidableEq, Repr

/-! ## Character and string helpers (Python string semantics) -/

/-- Numeric value of a decimal digit character. -/
def digitVal (c : Char) : Nat := c.toNat - 48

/-- The decimal digit character for `n % 10`. -/
def digitChar (n : Nat) : Char := Char.ofNat (48 + n % 10)

/-- Fold a digit list into a number (most significant first). -/
def digitsToNat (cs : List Char) : Nat :=
  cs.foldl (fun n c => n * 10 + digitVal c) 0

/-- Two-digit zero-padded decimal rendering (`strftime` `%m`, `%d`, ...). -/
def pad2 (n : Nat) : String :=
  ⟨[digitChar (n / 10), digitChar n]⟩

/-- Four-digit zero-padded decimal rendering (`strftime` `%Y`). -/
def pad4 (n : Nat) : String :=
  ⟨[digitChar (n / 1000), digitChar (n / 100), digitChar (n / 10), digitChar n]⟩

/-- Python `str.lower()` (ASCII case folding; the repository only handles
ASCII exchange payloads). -/
def pyLower (s : String) : String := ⟨s.data.map Char.toLower⟩

/-- Python `str.strip()`: drop leading and trailing whitespace. -/
def pyStrip (s : String) : String :=
  ⟨(s.data.dropWhile Char.isWhitespace).reverse.dropWhile Char.isWhitespace |>.reverse⟩

/-- Python `s[:n]` on a string. -/
def pyTake (n : Nat) (s : String) : String := ⟨s.data.take n⟩

/-- Python `s[a:b]` on a string. -/
def pySlice (a b : Nat) (s : String) : String := ⟨(s.data.take b).drop a⟩

/-- `needle.data` occurs (contiguously) in `hay`: Python `needle in hay`. -/
def listContainsSub (needle : List Char) : List Char → Bool
  | [] => needle.isEmpty
  | c :: rest => needle.isPrefixOf (c :: rest) || listContainsSub needle rest

/-- Python `needle in hay` for strings (case-sensitive). -/
def strContains (hay needle : String) : Bool :=
  listContainsSub needle.data hay.data

/-- Case-insensitive prefix test (ASCII), used for `re.IGNORECASE` literals. -/
def ciIsPrefixOf : List Char → List Char → Bool
  | [], _ => true
  | _ :: _, [] => false
  | p :: ps, c :: cs => (p.toLower = c.toLower) && ciIsPrefixOf ps cs

/-- Python truthiness of `Option String` (`None` and `''` are falsy). -/
def optStrFalsy : Option String → Bool
  | none => true
  | some s => s = ""

/-- Python `a or b` on optional strings: `b` if `a` is falsy, else `a`. -/
def firstTruthyStr (a b : Option String) : Option String :=
  if optStrFalsy a then b else a

/-! ## `datetime` parsing

`BSEDatabaseManager.parse_iso_datetime` (database_manager.py:243-265) first
applies the anchored regex `(\d{4}-\d{2}-\d{2}T\d{2}:\d{2}:\d{2})(\.\d+)?`;
on a match it normalises the fraction to six digits and calls
`datetime.fromisoformat`, otherwise it falls back to
`datetime.strptime(dt_str, '%Y-%m-%dT%H:%M:%S')`.  Both library calls
validate the field ranges and raise `ValueError` otherwise; `strptime`
requires the whole string to be consumed and accepts one- or two-digit
month/day/hour/minute/second fields, while the regex requires exactly two
digits but ignores trailing text. -/

/-- Gregorian leap-year rule (as used by `datetime`). -/
def isLeapYear (y : Nat) : Bool :=
  (y % 4 = 0 && y % 100 ≠ 0) || y % 400 = 0

/-- Days in a month (as validated by `datetime`). -/
def daysInMonth (y m : Nat) : Nat :=
  if m = 2 then (if isLeapYear y then 29 else 28)
  else if m = 4 ∨ m = 6 ∨ m = 9 ∨ m = 11 then 30
  else 31

/-- `datetime` range validation for a calendar date. -/
def validDate (y m d : Nat) : Bool :=
  1 ≤ y && y ≤ 9999 && 1 ≤ m && m ≤ 12 && 1 ≤ d && d ≤ daysInMonth y m

/-- `datetime` range validation for a time of day. -/
def validTime (h mi s : Nat) : Bool :=
  h ≤ 23 && mi ≤ 59 && s ≤ 59

/-- Match the anchored 19-character prefix
`\d{4}-\d{2}-\d{2}T\d{2}:\d{2}:\d{2}`, returning the six numeric fields
and the unconsumed rest of the string. -/
def matchIsoHead : List Char → Option (Nat × Nat × Nat × Nat × Nat × Nat × List Char)
  | y1 :: y2 :: y3 :: y4 :: '-' :: m1 :: m2 :: '-' :: d1 :: d2 :: 'T' ::
      h1 :: h2 :: ':' :: i1 :: i2 :: ':' :: s1 :: s2 :: rest =>
    if (y1.isDigit && y2.isDigit && y3.isDigit && y4.isDigit &&
        m1.isDigit && m2.isDigit && d1.isDigit && d2.isDigit &&
        h1.isDigit && h2.isDigit && i1.isDigit && i2.isDigit &&
        s1.isDigit && s2.isDigit) then
      some (digitsToNat [y1, y2, y3, y4], digitsToNat [m1, m2], digitsToNat [d1, d2],
            digitsToNat [h1, h2], digitsToNat [i1, i2], digitsToNat [s1, s2], rest)
    else none
  | _ => none

/-- Read one or two digits (`strptime`'s `\d{1,2}` field regex; the following
literal in the format is never a digit, so greedy matching is exact). -/
def take12Digits : List Char → Option (Nat × List Char)
  | c1 :: c2 :: rest =>
    if c1.isDigit then
      if c2.isDigit then some (digitsToNat [c1, c2], rest)
      else some (digitVal c1, c2 :: rest)
    else none
  | [c1] => if c1.isDigit then some (digitVal c1, []) else none
  | [] => none

/-- Read exactly four digits (`strptime`'s `%Y`). -/
def take4Digits : List Char → Option (Nat × List Char)
  | c1 :: c2 :: c3 :: c4 :: rest =>
    if c1.isDigit && c2.isDigit && c3.isDigit && c4.isDigit then
      some (digitsToNat [c1, c2, c3, c4], rest)
    else none
  | _ => none

/-- Consume one expected literal character. -/
def expectChar (c : Char) : List Char → Option (List Char)
  | c1 :: rest => if c1 = c then some rest else none
  | [] => none

/-- `datetime.strptime(s, '%Y-%m-%dT%H:%M:%S')`: whole-string match with
flexible-width numeric fields, then range validation. -/
def strptimeIsoT (s : String) : Option DateTime := do
  let (y, r1) ← take4Digits s.data
  let r2 ← expectChar '-' r1
  let (mo, r3) ← take12Digits r2
  let r4 ← expectChar '-' r3
  let (d, r5) ← take12Digits r4
  let r6 ← expectChar 'T' r5
  let (h, r7) ← take12Digits r6
  let r8 ← expectChar ':' r7
  let (mi, r9) ← take12Digits r8
  let r10 ← expectChar ':' r9
  let (se, r11) ← take12Digits r10
  if r11 = [] && validDate y mo d && validTime h mi se then
    some ⟨y, mo, d, h, mi, se, 0⟩
  else none

/-- `BSEDatabaseManager.parse_iso_datetime` (database_manager.py:243-265).
`Except.error ()` models the exception path (`ValueError` escaping). -/
def parse_iso_datetime (s : String) : Except Unit DateTime :=
  match matchIsoHead s.data with
  | some (y, mo, d, h, mi, se, rest) =>
    -- fraction group `(\.\d+)?`: a dot followed by at least one digit
    let fracDigits : List Char :=
      match rest with
      | '.' :: ds => ds.takeWhile Char.isDigit
      | _ => []
    -- pad/truncate to six digits for microseconds, then `fromisoformat`
    let micro : Nat :=
      if fracDigits = [] then 0
      else digitsToNat ((fracDigits ++ ['0', '0', '0', '0', '0', '0']).take 6)
    if validDate y mo d && validTime h mi se then
      .ok ⟨y, mo, d, h, mi, se, micro⟩
    else .error ()
  | none =>
    match strptimeIsoT s with
    | some dt => .ok dt
    | none => .error ()

/-!
`datetime.fromisoformat` as called by `BSEPDFStorage.generate_pdf_path`
(minio_client.py:128-152).  We model the common ISO-8601 subset
`YYYY-MM-DD[sep HH:MM[:SS[.frac]]][±HH:MM[:SS]]` (`sep` is `T` or a space);
the code has already replaced `Z` by `+00:00` before the call.  Values with
out-of-range fields are rejected, as the library does.  The produced value
keeps the naive clock fields: `strftime` formats the fields as stored,
without any offset conversion.
-/

/-- Parse an optional UTC-offset suffix `±HH:MM[:SS]`; returns `some rest`
when the offset (or nothing) was consumed, `none` on a malformed suffix. -/
def parseIsoOffset : List Char → Option Unit
  | [] => some ()
  | sign :: rest =>
    if sign = '+' ∨ sign = '-' then
      match rest with
      | h1 :: h2 :: ':' :: m1 :: m2 :: rest2 =>
        if h1.isDigit && h2.isDigit && m1.isDigit && m2.isDigit &&
            digitsToNat [h1, h2] ≤ 23 && digitsToNat [m1, m2] ≤ 59 then
          match rest2 with
          | [] => some ()
          | ':' :: s1 :: s2 :: [] =>
            if s1.isDigit && s2.isDigit && digitsToNat [s1, s2] ≤ 59 then some () else none
          | _ => none
        else none
      | _ => none
    else none

/-- Parse `HH:MM[:SS[.frac]]` followed by an optional offset. -/
def parseIsoTime : List Char → Option (Nat × Nat × Nat × Nat)
  | h1 :: h2 :: ':' :: i1 :: i2 :: rest =>
    if h1.isDigit && h2.isDigit && i1.isDigit && i2.isDigit then
      let h := digitsToNat [h1, h2]
      let mi := digitsToNat [i1, i2]
      match rest with
      | ':' :: s1 :: s2 :: rest2 =>
        if s1.isDigit && s2.isDigit then
          let se := digitsToNat [s1, s2]
          match rest2 with
          | '.' :: ds =>
            let frac := ds.takeWhile Char.isDigit
            let rest3 := ds.dropWhile Char.isDigit
            if frac ≠ [] && frac.length ≤ 6 then
              match parseIsoOffset rest3 with
              | some () => some (h, mi, se, digitsToNat ((frac ++ ['0', '0', '0', '0', '0', '0']).take 6))
              | none => none
            else none
          | _ =>
            match parseIsoOffset rest2 with
            | some () => some (h, mi, se, 0)
            | none => none
        else none
      | _ =>
        match parseIsoOffset rest with
        | some () => some (h, mi, 0, 0)
        | none => none
    else none
  | _ => none

/-- `datetime.fromisoformat` (modelled subset, see above). -/
def fromisoformat (s : String) : Option DateTime :=
  match s.data with
  | y1 :: y2 :: y3 :: y4 :: '-' :: m1 :: m2 :: '-' :: d1 :: d2 :: rest =>
    if y1.isDigit && y2.isDigit && y3.isDigit && y4.isDigit &&
        m1.isDigit && m2.isDigit && d1.isDigit && d2.isDigit then
      let y := digitsToNat [y1, y2, y3, y4]
      let mo := digitsToNat [m1, m2]
      let d := digitsToNat [d1, d2]
      if validDate y mo d then
        match rest with
        | [] => some ⟨y, mo, d, 0, 0, 0, 0⟩
        | sep :: timePart =>
          if sep = 'T' ∨ sep = ' ' then
            match parseIsoTime timePart with
            | some (h, mi, se, micro) =>
              if validTime h mi se then some ⟨y, mo, d, h, mi, se, micro⟩ else none
            | none => none
          else none
      else none
    else none
  | _ => none

/-- Python `s.replace('Z', '+00:00')`. -/
def replaceZ (s : String) : String :=
  ⟨s.data.flatMap fun c => if c = 'Z' then ['+', '0', '0', ':', '0', '0'] else [c]⟩

/-! ## Filing classifier (financial_data_processor.py:182-203)

The keyword table is `FinancialDataProcessor.financial_keywords`
(financial_data_processor.py:46-50). -/

/-- `financial_keywords['high_confidence']`. -/
def highConfidenceKeywords : List String :=
  ["result", "financial results", "quarterly results", "annual results"]

/-- `financial_keywords['medium_confidence']` (present in the source but not
read by the classifier functions). -/
def mediumConfidenceKeywords : List String :=
  ["unaudited", "audited", "standalone", "consolidated"]

/-- `financial_keywords['board_keywords']`. -/
def boardKeywords : List String :=
  ["approve", "consideration", "quarter ended", "year ended"]

/-- `FinancialDataProcessor._is_financial_announcement`
(financial_data_processor.py:182-194). -/
def isFinancialAnnouncement (category subject : String) : Bool :=
  if category = "Result" ∨ category = "Results" then true
  else if category = "Board Meeting" then
    boardKeywords.any fun k => strContains subject k
  else
    highConfidenceKeywords.any fun k => strContains subject k

/-- `FinancialDataProcessor._determine_confidence`
(financial_data_processor.py:196-203). Note that only the singular
`'Result'` yields `'HIGH'`. -/
def determineConfidence (category subject : String) : String :=
  if category = "Result" then "HIGH"
  else if category = "Board Meeting" && boardKeywords.any (fun k => strContains subject k) then
    "MEDIUM"
  else "LOW"

/-! ## Text extractors (financial_data_processor.py:205-299)

Each `re.search` call is translated into a dedicated scanner with Python's
leftmost-match semantics: start positions are tried left to right, and at
each start the lazy `.*?` consumes as little as possible.  The searched
texts contain no newline, so `.` matching any character is exact.
`re.IGNORECASE` literals are compared through ASCII case folding. -/

/-- Match `\d{2}\.\d{2}\.\d{4}` exactly at the head of the list, returning
the ten captured characters. -/
def matchDDMMYYYY : List Char → Option (List Char)
  | d1 :: d2 :: '.' :: m1 :: m2 :: '.' :: y1 :: y2 :: y3 :: y4 :: _ =>
    if d1.isDigit && d2.isDigit && m1.isDigit && m2.isDigit &&
        y1.isDigit && y2.isDigit && y3.isDigit && y4.isDigit then
      some [d1, d2, '.', m1, m2, '.', y1, y2, y3, y4]
    else none
  | _ => none

/-- `re.search(lit ++ r'(\d{2}\.\d{2}\.\d{4})', text, re.IGNORECASE)`:
leftmost occurrence of the literal followed immediately by a date, capturing
the date. -/
def searchLitDate (lit : List Char) : List Char → Option String
  | [] => none
  | c :: rest =>
    match (if ciIsPrefixOf lit (c :: rest) then
             matchDDMMYYYY ((c :: rest).drop lit.length) else none) with
    | some cap => some ⟨cap⟩
    | none => searchLitDate lit rest

/-- First position holding four consecutive digits (the lazy `.*?(\d{4})`
tail), capturing them. -/
def findFourDigits : List Char → Option (List Char)
  | c1 :: c2 :: c3 :: c4 :: rest =>
    if c1.isDigit && c2.isDigit && c3.isDigit && c4.isDigit then
      some [c1, c2, c3, c4]
    else findFourDigits (c2 :: c3 :: c4 :: rest)
  | _ => none

/-- `re.search(lit ++ r'.*?(\d{4})', text, re.IGNORECASE)`: leftmost
occurrence of the literal that is followed (anywhere later) by four digits,
capturing the first such four-digit run. -/
def searchLitThenYear (lit : List Char) : List Char → Option String
  | [] => none
  | c :: rest =>
    match (if ciIsPrefixOf lit (c :: rest) then
             findFourDigits ((c :: rest).drop lit.length) else none) with
    | some cap => some ⟨cap⟩
    | none => searchLitThenYear lit rest

/-- `re.search(r'q[1-4].*?(\d{4})', text, re.IGNORECASE)`. -/
def searchQDigitThenYear : List Char → Option String
  | [] => none
  | c :: rest =>
    match (match rest with
           | d :: rest2 =>
             if c.toLower = 'q' && (d = '1' ∨ d = '2' ∨ d = '3' ∨ d = '4') then
               findFourDigits rest2
             else none
           | [] => none) with
    | some cap => some ⟨cap⟩
    | none => searchQDigitThenYear rest

/-- First character in `1..4` (the lazy `.*?([1-4])` tail). -/
def findDigit14 : List Char → Option Char
  | [] => none
  | c :: rest =>
    if c = '1' ∨ c = '2' ∨ c = '3' ∨ c = '4' then some c else findDigit14 rest

/-- `re.search(lit ++ r'.*?([1-4])', text, re.IGNORECASE)`. -/
def searchLitThenDigit14 (lit : List Char) : List Char → Option Char
  | [] => none
  | c :: rest =>
    match (if ciIsPrefixOf lit (c :: rest) then
             findDigit14 ((c :: rest).drop lit.length) else none) with
    | some cap => some cap
    | none => searchLitThenDigit14 lit rest

/-- Case-insensitive substring search (a literal pattern under
`re.IGNORECASE`). -/
def ciContains (hay lit : List Char) : Bool :=
  match hay with
  | [] => lit.isEmpty
  | _ :: rest => ciIsPrefixOf lit hay || ciContains rest lit

/-- `re.search(r'q([1-4])', text, re.IGNORECASE)`. -/
def searchQDigit : List Char → Option Char
  | [] => none
  | c :: rest =>
    match rest with
    | d :: _ =>
      if c.toLower = 'q' && (d = '1' ∨ d = '2' ∨ d = '3' ∨ d = '4') then some d
      else searchQDigit rest
    | [] => none

/-- `FinancialDataProcessor._extract_period`
(financial_data_processor.py:230-246): first matching pattern wins. -/
def extractPeriod (text : String) : Option String :=
  match searchLitDate "quarter ended ".data text.data with
  | some cap => some cap
  | none =>
  match searchLitDate "year ended ".data text.data with
  | some cap => some cap
  | none =>
  match searchLitDate "period ended ".data text.data with
  | some cap => some cap
  | none =>
  match searchQDigitThenYear text.data with
  | some cap => some cap
  | none => searchLitThenYear "fy".data text.data

/-- `FinancialDataProcessor._extract_result_type`
(financial_data_processor.py:248-255). -/
def extractResultType (text : String) : Option String :=
  if strContains text "consolidated" then some "consolidated"
  else if strContains text "standalone" then some "standalone"
  else none

/-- `FinancialDataProcessor._extract_financial_year`
(financial_data_processor.py:257-262). -/
def extractFinancialYear (text : String) : Option String :=
  searchLitThenYear "fy".data text.data

/-- `FinancialDataProcessor._extract_quarter`
(financial_data_processor.py:264-290): ordered pattern list; the spelled-out
ordinals map to fixed labels, the numeric patterns capture the digit. -/
def extractQuarter (text : String) : Option String :=
  match searchQDigit text.data with
  | some d => some ⟨['Q', d]⟩
  | none =>
  match searchLitThenDigit14 "quarter".data text.data with
  | some d => some ⟨['Q', d]⟩
  | none =>
  if ciContains text.data "first quarter".data then some "Q1"
  else if ciContains text.data "second quarter".data then some "Q2"
  else if ciContains text.data "third quarter".data then some "Q3"
  else if ciContains text.data "fourth quarter".data then some "Q4"
  else none

/-- `FinancialDataProcessor._extract_audit_status`
(financial_data_processor.py:292-299). -/
def extractAuditStatus (text : String) : Option String :=
  if strContains text "unaudited" then some "unaudited"
  else if strContains text "audited" then some "audited"
  else none

/-! ## Records -/

/-- A raw exchange announcement dictionary.  Fields that the code reads via
`announcement.get(...)` are optional; `none` models an absent key.  The BSE
payload carries string values for all of these (`SCRIP_CD` is stringified
with `str(...)` wherever it is read). -/
structure AnnRecord where
  SCRIP_CD : Option String := none
  NEWS_DT : Option String := none
  DT_TM : Option String := none
  CATEGORYNAME : Option String := none
  SLONGNAME : Option String := none
  NEWSSUB : Option String := none
  NEWSID : Option String := none
  ATTACHMENTNAME : Option String := none
  MORE : Option String := none
  minio_path : Option String := none
  pdf_stored : Option Bool := none
deriving DecidableEq, Repr

/-- The dictionary built by `_extract_financial_info_from_text`
(financial_data_processor.py:212-218) together with the numeric keys that
`_prepare_snapshot_data` (database_manager.py:325-338) reads from it with
`.get`.  The extractor never sets the numeric keys, so they are `none` in
every extractor output; carrying them here lets `_prepare_snapshot_data`
read them uniformly. -/
structure ExtractedData where
  period : Option String := none
  type : Option String := none
  financial_year : Option String := none
  quarter : Option String := none
  audit_status : Option String := none
  total_debt : Option Int := none
  cash_equiv : Option Int := none
  revenue : Option Int := none
  interest_income : Option Int := none
  dividend_income : Option Int := none
deriving DecidableEq, Repr

/-- `FinancialDataProcessor._extract_financial_info_from_text`
(financial_data_processor.py:205-228).  The guard
`any(extracted_info.values())` ranges over the five keys the extractor
itself sets; every extractor value is either `None` or a non-empty string,
so Python truthiness coincides with `isSome`.  The `except` branch is dead
for these pure extractors. -/
def extractFinancialInfoFromText (ann : AnnRecord) : Option ExtractedData :=
  let subject := ann.NEWSSUB.getD ""
  let moreText := ann.MORE.getD ""
  let fullText := pyLower (subject ++ " " ++ moreText)
  let info : ExtractedData :=
    { period := extractPeriod fullText
      type := extractResultType fullText
      financial_year := extractFinancialYear fullText
      quarter := extractQuarter fullText
      audit_status := extractAuditStatus fullText }
  if info.period.isSome || info.type.isSome || info.financial_year.isSome ||
      info.quarter.isSome || info.audit_status.isSome then
    some info
  else none

/-! ## Tables with a unique key

A PostgreSQL table with primary key `(symbol, filing_date)` is a finite map
from keys to rows; we model it as an association list whose key list is
`Nodup`.  `INSERT ... ON CONFLICT (key) DO UPDATE SET ...` where every
non-key column is overwritten by `EXCLUDED` (as in both insert queries of
database_manager.py:122-138 and 203-221) replaces the conflicting row, or
appends a fresh one. -/

/-- The composite primary key `(symbol, filing_date)`. -/
abbrev RowKey := String × DateTime

/-- Insert-or-replace on the unique key. -/
def upsertA {α : Type} (t : List (RowKey × α)) (k : RowKey) (v : α) : List (RowKey × α) :=
  if t.any (fun p => p.1 = k) then
    t.map fun p => if p.1 = k then (k, v) else p
  else t ++ [(k, v)]

/-- Row lookup by key. -/
def lookupA {α : Type} (t : List (RowKey × α)) (k : RowKey) : Option α :=
  (t.find? fun p => p.1 = k).map Prod.snd

/-- Run a list of keyed writes left to right. -/
def runUpserts {α : Type} (t : List (RowKey × α)) (rows : List (RowKey × α)) :
    List (RowKey × α) :=
  rows.foldl (fun acc p => upsertA acc p.1 p.2) t

/-- The last value a write list assigns to a key, if any (later writes
win). -/
def lastVal {α : Type} : List (RowKey × α) → RowKey → Option α
  | [], _ => none
  | p :: rest, k =>
    match lastVal rest k with
    | some v => some v
    | none => if p.1 = k then some p.2 else none

/-! ## Persistence coordinator (database_manager.py)

Exceptions raised inside a batch roll the transaction back and re-raise
(database_manager.py:152-156 and 235-239): we model that by an
`Except.error` result, the caller's table being unchanged. -/

/-- Error classes surfaced by the insert operations.  `nullParams` models
what happens when `_prepare_announcement_data` returns `None` and
`insert_announcements` hands `None` to `cursor.execute` (line 140): with
`vars=None`, psycopg2 performs no parameter interpolation, the `%(symbol)s`
placeholders reach PostgreSQL verbatim, and the statement raises a
`ProgrammingError` caught by the batch handler, which rolls back and
re-raises. -/
inductive DBErr where
  | prepareRaise
  | nullParams
deriving DecidableEq, Repr

/-- A prepared announcement row (the dict built at
database_manager.py:296-306). -/
structure AnnData where
  symbol : String
  company_name : String
  filing_date : DateTime
  category : String
  headline : String
  confidence : String
  raw_json : AnnRecord
  minio_path : Option String
  pdf_stored : Bool
deriving DecidableEq, Repr

/-- `BSEDatabaseManager._prepare_announcement_data`
(database_manager.py:267-310).  `.ok none` is the `return None` skip path;
`.error` is a raised exception (a filing date that fails to parse). -/
def prepareAnnouncementData (ann : AnnRecord) : Except DBErr (Option AnnData) :=
  let symbol := pyStrip ((ann.SCRIP_CD.getD ""))
  match firstTruthyStr ann.NEWS_DT ann.DT_TM with
  | none => .ok none
  | some fd =>
    if symbol = "" ∨ fd = "" then .ok none
    else
      match parse_iso_datetime fd with
      | .error _ => .error .prepareRaise
      | .ok filingDate =>
        let confidence :=
          if ann.CATEGORYNAME = some "Result" then "HIGH"
          else if ann.CATEGORYNAME = some "Board Meeting" then "MEDIUM"
          else "LOW"
        .ok (some
          { symbol := symbol
            company_name := pyStrip (ann.SLONGNAME.getD "")
            filing_date := filingDate
            category := pyStrip (ann.CATEGORYNAME.getD "")
            headline := pyTake 600 (ann.NEWSSUB.getD "")
            confidence := confidence
            raw_json := ann
            minio_path := ann.minio_path
            pdf_stored := ann.pdf_stored.getD false })

/-- The announcements table. -/
abbrev AnnTable := List (RowKey × AnnData)

/-- Prepare a whole batch; the first exception (including the
`None`-parameters crash) aborts. -/
def prepAnnRows : List AnnRecord → Except DBErr (List (RowKey × AnnData))
  | [] => .ok []
  | r :: rs =>
    match prepareAnnouncementData r with
    | .error e => .error e
    | .ok none => .error .nullParams
    | .ok (some row) =>
      match prepAnnRows rs with
      | .error e => .error e
      | .ok rows => .ok (((row.symbol, row.filing_date), row) :: rows)

/-- Loop body of `BSEDatabaseManager.insert_announcements`
(database_manager.py:114-158): prepare each record, execute the upsert,
count it; any exception rolls the batch back. -/
def insertAnnouncementsGo (t : AnnTable) (n : Nat) :
    List AnnRecord → Except DBErr (AnnTable × Nat)
  | [] => .ok (t, n)
  | r :: rs =>
    match prepareAnnouncementData r with
    | .error e => .error e
    | .ok none => .error .nullParams
    | .ok (some row) =>
      insertAnnouncementsGo (upsertA t (row.symbol, row.filing_date) row) (n + 1) rs

/-- `BSEDatabaseManager.insert_announcements` (database_manager.py:98-158).
Returns the committed table and the processed count, or the propagated
error after rollback. -/
def insertAnnouncements (t : AnnTable) (batch : List AnnRecord) :
    Except DBErr (AnnTable × Nat) :=
  insertAnnouncementsGo t 0 batch

/-- A Python value that may be an ISO string or a `datetime` object
(`snapshot.get('date')` receives a `datetime` from the processing pipeline
and a string from serialized data). -/
inductive PyDateVal where
  | str (s : String)
  | dt (d : DateTime)
deriving DecidableEq, Repr

/-- Python truthiness for an optional date value (`''` is falsy). -/
def optDateFalsy : Option PyDateVal → Bool
  | none => true
  | some (.str s) => s = ""
  | some (.dt _) => false

/-- Python `a or b` on optional date values. -/
def firstTruthyDate (a b : Option PyDateVal) : Option PyDateVal :=
  if optDateFalsy a then b else a

/-- A raw snapshot dictionary handed to `insert_financial_snapshots`. -/
structure SnapRecord where
  symbol : Option String := none
  date : Option PyDateVal := none
  filing_date : Option PyDateVal := none
  extracted_data : Option ExtractedData := none
deriving DecidableEq, Repr

/-- `BSEDatabaseManager._parse_fy_end` (database_manager.py:345-359):
`strptime('%d.%m.%Y')` on strings containing a dot; every failure is caught
and becomes `None`. -/
def parseFyEnd (period : Option String) : Option DateTime :=
  match period with
  | none => none
  | some s =>
    if s = "" then none
    else if strContains s "." then
      match s.data with
      | [d1, d2, '.', m1, m2, '.', y1, y2, y3, y4] =>
        if d1.isDigit && d2.isDigit && m1.isDigit && m2.isDigit &&
            y1.isDigit && y2.isDigit && y3.isDigit && y4.isDigit then
          let d := digitsToNat [d1, d2]
          let mo := digitsToNat [m1, m2]
          let y := digitsToNat [y1, y2, y3, y4]
          if validDate y mo d then some ⟨y, mo, d, 0, 0, 0, 0⟩ else none
        else none
      | _ => none
    else none

/-- A prepared snapshot row (the dict built at
database_manager.py:328-339). `filing_date = none` models SQL `NULL`. -/
structure SnapData where
  symbol : String
  filing_date : Option DateTime
  fy_end : Option DateTime
  quarter : Option String
  audit_status : Option String
  total_debt : Option Int
  cash_equiv : Option Int
  revenue : Option Int
  interest_income : Option Int
  dividend_income : Option Int
deriving DecidableEq, Repr

/-- `BSEDatabaseManager._prepare_snapshot_data`
(database_manager.py:312-343); a string filing date that fails
`parse_iso_datetime` raises. -/
def prepareSnapshotData (snap : SnapRecord) : Except DBErr SnapData :=
  let filing0 := firstTruthyDate snap.date snap.filing_date
  let filingDateE : Except DBErr (Option DateTime) :=
    match filing0 with
    | none => .ok none
    | some (.dt d) => .ok (some d)
    | some (.str s) =>
      match parse_iso_datetime s with
      | .ok d => .ok (some d)
      | .error _ => .error .prepareRaise
  match filingDateE with
  | .error e => .error e
  | .ok filingDate =>
    let ed := snap.extracted_data
    .ok
      { symbol := snap.symbol.getD ""
        filing_date := filingDate
        fy_end := parseFyEnd (ed.bind ExtractedData.period)
        quarter := ed.bind ExtractedData.quarter
        audit_status := ed.bind ExtractedData.audit_status
        total_debt := ed.bind ExtractedData.total_debt
        cash_equiv := ed.bind ExtractedData.cash_equiv
        revenue := ed.bind ExtractedData.revenue
        interest_income := ed.bind ExtractedData.interest_income
        dividend_income := ed.bind ExtractedData.dividend_income }

/-- The financial_snapshots table. -/
abbrev SnapTable := List (RowKey × SnapData)

/-- The parent-announcement existence check
(database_manager.py:184-200): `WHERE symbol = %(symbol)s AND filing_date =
%(filing_date)s`.  A SQL comparison with `NULL` is never true, so a `NULL`
filing date finds no parent. -/
def snapParentFound (annKeys : List RowKey) (d : SnapData) : Bool :=
  match d.filing_date with
  | some fd => decide ((d.symbol, fd) ∈ annKeys)
  | none => false

/-- Loop body of `BSEDatabaseManager.insert_financial_snapshots`
(database_manager.py:160-241): prepare, check the parent announcement,
skip with a warning when it is absent, upsert and count otherwise. -/
def insertFinancialSnapshotsGo (annKeys : List RowKey) (t : SnapTable) (n : Nat) :
    List SnapRecord → Except DBErr (SnapTable × Nat)
  | [] => .ok (t, n)
  | r :: rs =>
    match prepareSnapshotData r with
    | .error e => .error e
    | .ok d =>
      match d.filing_date with
      | some fd =>
        if (d.symbol, fd) ∈ annKeys then
          insertFinancialSnapshotsGo annKeys (upsertA t (d.symbol, fd) d) (n + 1) rs
        else insertFinancialSnapshotsGo annKeys t n rs
      | none => insertFinancialSnapshotsGo annKeys t n rs

/-- `BSEDatabaseManager.insert_financial_snapshots`
(database_manager.py:160-241). `annKeys` is the key set of the
announcements table consulted by the existence check. -/
def insertFinancialSnapshots (annKeys : List RowKey) (t : SnapTable)
    (batch : List SnapRecord) : Except DBErr (SnapTable × Nat) :=
  insertFinancialSnapshotsGo annKeys t 0 batch

/-- Whether a snapshot record would pass the parent-announcement check
(used to state what the processed count counts). -/
def snapshotHasParent (annKeys : List RowKey) (r : SnapRecord) : Bool :=
  match prepareSnapshotData r with
  | .ok d => snapParentFound annKeys d
  | .error _ => false

/-! ## Date-range chunking (bse_ann.py:76-92)

`_chunk_data_range` parses its `YYYYMMDD` endpoints with
`strptime('%Y%m%d')`, steps through the range with `timedelta(days=...)`,
and renders each chunk endpoint back with `strftime('%Y%m%d')`.
`strptime('%Y%m%d')`/`strftime('%Y%m%d')` is a bijection between well-formed
`YYYYMMDD` strings and proleptic-Gregorian day ordinals
(`date.toordinal()`, `0001-01-01 = 1`), and `timedelta(days=k)` adds `k`
days, so we model dates as day ordinals (`Nat`) and chunks as pairs of day
ordinals.  Crucially, `datetime + timedelta` raises `OverflowError` as soon
as the result passes `datetime.max` (`9999-12-31`, ordinal 3652059):
`pyAddDays` returns `Except.error` there, and either addition of the loop
body — `current_day + timedelta(days=max_days-1)` before the `min` clamp,
or `chunk_end + timedelta(days=1)` at the end of an iteration — aborts the
whole call, discarding the chunks accumulated so far.  The loop body is
otherwise translated verbatim:
`chunk_end = min(current_day + (max_days - 1), end_date)` and
`current_day = chunk_end + 1`.  The recursion is fuelled by
`end - start + 1`, which suffices whenever `max_days ≥ 1` (with
`max_days = 0` the Python loop does not terminate; the claims only concern
`max_days ≥ 1`). -/

/-- Days in the months of year `y` strictly before month `m`. -/
def daysBeforeMonth (y m : Nat) : Nat :=
  (List.range (m - 1)).foldl (fun acc i => acc + daysInMonth y (i + 1)) 0

/-- Python `date(y, m, d).toordinal()`: the proleptic Gregorian ordinal,
with `0001-01-01 = 1`. -/
def dateOrdinal (y m d : Nat) : Nat :=
  365 * (y - 1) + (y - 1) / 4 - (y - 1) / 100 + (y - 1) / 400 +
    daysBeforeMonth y m + d

/-- The ordinal of `datetime.max`'s date, `9999-12-31` (= 3652059). -/
def pyDateMax : Nat := dateOrdinal 9999 12 31

/-- `d + timedelta(days=k)` on a midnight `datetime`: raises
`OverflowError` when the result passes `datetime.max`. -/
def pyAddDays (cur k : Nat) : Except Unit Nat :=
  if cur + k ≤ pyDateMax then .ok (cur + k) else .error ()

/-- One iteration layer of the `while current_day <= end_date` loop
(bse_ann.py:84-90); an `OverflowError` in either `timedelta` addition
propagates out, discarding the accumulated chunks. -/
def chunkAux (maxDays endDay : Nat) : Nat → Nat → Except Unit (List (Nat × Nat))
  | 0, _ => .ok []
  | fuel + 1, cur =>
    if cur ≤ endDay then
      match pyAddDays cur (maxDays - 1) with
      | .error err => .error err
      | .ok sum =>
        match pyAddDays (min sum endDay) 1 with
        | .error err => .error err
        | .ok next =>
          match chunkAux maxDays endDay fuel next with
          | .error err => .error err
          | .ok rest => .ok ((cur, min sum endDay) :: rest)
    else .ok []

/-- `BSEAnnouncementsFetcher._chunk_data_range` (bse_ann.py:76-92) on day
ordinals: the chunk list, or the propagated `OverflowError`. -/
def chunkDataRange (startDay endDay maxDays : Nat) : Except Unit (List (Nat × Nat)) :=
  chunkAux maxDays endDay (endDay + 1 - startDay) startDay

/-- The set of days a chunk covers, as a list. -/
def chunkDays (p : Nat × Nat) : List Nat := List.range' p.1 (p.2 + 1 - p.1)

/-! ## NSE retry policy (nse_ann.py:86-118)

`NSEAnnouncementsFetcher._make_request` classifies each response status:
200 returns the payload; 403/429/503 sleeps
`(2 ** attempt) * random.uniform(10, 20)` seconds, reinitializes the
session and lets the loop retry; anything else logs and retries.  Delays
are modelled in tenths of a second so the jitter bounds stay integral:
`random.uniform(10, 20)` draws `jitterTenths ∈ [100, 200]` with expected
value `150` tenths (15 s, the midpoint of the uniform distribution). -/

/-- The action the retry handler takes for one response. -/
inductive NseAction where
  | returnJson
  | reinitSessionThenRetry (attempt : Nat)
  | logThenRetry
deriving DecidableEq, Repr

/-- Status dispatch of `_make_request` (nse_ann.py:100-110). -/
def nseHandleStatus (status attempt : Nat) : NseAction :=
  if status = 200 then .returnJson
  else if status = 403 ∨ status = 429 ∨ status = 503 then
    .reinitSessionThenRetry attempt
  else .logThenRetry

/-- The blocked-status delay `(2 ** attempt) * jitter`, in tenths of a
second, for a jitter draw `jitterTenths ∈ [100, 200]`. -/
def nseBlockedWaitTenths (attempt jitterTenths : Nat) : Nat :=
  2 ^ attempt * jitterTenths

/-- Expected blocked-status delay in tenths of a second
(`E[uniform(10, 20)] = 15` s). -/
def nseExpectedBlockedWaitTenths (attempt : Nat) : Nat :=
  2 ^ attempt * 150

/-! ## Attachment store (minio_client.py)

Network and object-store behaviour enters through a `DlEnv` oracle:
`initOk` is the outcome of `_initialize_bse_session`, `pdfOnStore` the
`stat_object` existence check, and `http url attempt` the response of the
`session.get(pdf_url, ...)` issued on that retry attempt.  Sleeps and the
rate limiter only delay execution, so they do not appear. -/

/-- An HTTP response as consumed by `download_and_store_pdf`. The
content-type is inspected only for a log line (minio_client.py:190-193). -/
structure HttpResp where
  status : Nat
  contentType : String := ""
  body : String := ""
deriving DecidableEq, Repr

/-- The external-effect oracle for the attachment store. -/
structure DlEnv where
  initOk : Bool
  pdfOnStore : String → Bool
  http : String → Nat → HttpResp
  now : DateTime

/-- `%PDF` binary signature check (minio_client.py:199). -/
def startsWithPdfMagic (body : String) : Bool :=
  "%PDF".data.isPrefixOf body.data

/-- `BSEPDFStorage.generate_pdf_path` (minio_client.py:128-152).  `now` is
the wall clock consulted by the `datetime.now()` fallback when
`fromisoformat` rejects the filing date. -/
def generatePdfPath (now : DateTime) (symbol filingDate confidence : String) : String :=
  let dateObj := (fromisoformat (replaceZ filingDate)).getD now
  let year := pad4 dateObj.year
  let month := pad2 dateObj.month
  let folder :=
    if confidence = "HIGH" then "financial-results/" ++ year ++ "/" ++ month
    else if confidence = "MEDIUM" then "board-meetings/" ++ year ++ "/" ++ month
    else "raw-downloads/" ++ year ++ "/" ++ month
  let filename :=
    symbol ++ "_" ++ pad4 dateObj.year ++ pad2 dateObj.month ++ pad2 dateObj.day ++
      "_" ++ pad2 dateObj.hour ++ pad2 dateObj.minute ++ pad2 dateObj.second ++ ".pdf"
  folder ++ "/" ++ filename

/-- The `for attempt in range(max_retries)` loop of
`download_and_store_pdf` (minio_client.py:175-255), iterated over the list
of remaining attempt indices.  `rest ≠ []` is `attempt < max_retries - 1`;
falling out of the loop returns `None` (line 252-255); a 404 returns the
sentinel `"PDF Moved"` immediately (line 230-232); a 200 whose body fails
the `%PDF` check is retried, except on the last attempt, where control
falls through to the upload (lines 199-218). -/
def dlAttempts (env : DlEnv) (pdfUrl path : String) : List Nat → Option String
  | [] => none
  | a :: rest =>
    let resp := env.http pdfUrl a
    if resp.status = 200 then
      if ¬ startsWithPdfMagic resp.body ∧ rest ≠ [] then dlAttempts env pdfUrl path rest
      else some path
    else if resp.status = 403 then
      if rest ≠ [] then dlAttempts env pdfUrl path rest else none
    else if resp.status = 404 then some "PDF Moved"
    else if rest ≠ [] then dlAttempts env pdfUrl path rest
    else none

/-- `BSEPDFStorage.download_and_store_pdf` (minio_client.py:154-255). -/
def downloadAndStorePdf (env : DlEnv) (pdfUrl symbol filingDate : String)
    (confidence : String := "HIGH") (maxRetries : Nat := 3) : Option String :=
  if env.initOk = false then none
  else
    let path := generatePdfPath env.now symbol filingDate confidence
    if env.pdfOnStore path then some path
    else dlAttempts env pdfUrl path (List.range maxRetries)

/-! ## Announcement processing (financial_data_processor.py:65-149) -/

/-- URL roots (financial_data_processor.py:41-43). -/
def bseAttachmentLive : String :=
  "https://www.bseindia.com/xml-data/corpfiling/AttachLive"

/-- Historical-archive URL root. -/
def bseAttachmentMoved : String :=
  "https://www.bseindia.com/xml-data/corpfiling/AttachHis"

/-- The two attachment keys the branch at
financial_data_processor.py:119-126 writes together. -/
structure AttachOutcome where
  pdf_stored : Bool
  minio_path : Option String
deriving DecidableEq, Repr

/-- One `updated_pdf_status` call
(financial_data_processor.py:151-180): a targeted `UPDATE` of the two
attachment columns, recorded as data. -/
structure Patch where
  symbol : String
  filing_date : DateTime
  minio_path : Option String
  pdf_stored : Bool
deriving DecidableEq, Repr

/-- One processed-announcement dict (financial_data_processor.py:95-141).
`attach = none` models the `pdf_stored`/`minio_path` keys being absent
(the attachment branch not taken). -/
structure ProcessedData where
  symbol : String
  company : String
  category : String
  subject : String
  date : DateTime
  attachment_name : String
  confidence : String
  extracted_data : Option ExtractedData
  pdf_url : Option String
  processing_status : String
  attach : Option AttachOutcome
deriving DecidableEq, Repr

/-- Exceptions escaping `process_announcements`.  `noneLowerCrash` is the
`AttributeError` raised by `minio_path.lower()`
(financial_data_processor.py:115) when `download_and_store_pdf` returned
`None`; `dateParseError` is `parse_iso_datetime` raising at line 100. -/
inductive ProcErr where
  | dateParseError
  | noneLowerCrash
deriving DecidableEq, Repr

/-- One iteration of the `for announcement in anns` loop of
`FinancialDataProcessor.process_announcements`
(financial_data_processor.py:79-142).  Returns `none` for a skipped
non-financial record, or the processed dict with the `updated_pdf_status`
patches it issued. -/
def processOne (env : DlEnv) (ann : AnnRecord) :
    Except ProcErr (Option (ProcessedData × List Patch)) :=
  let category := pyStrip (ann.CATEGORYNAME.getD "")
  let subject := pyLower (ann.NEWSSUB.getD "")
  let company := ann.SLONGNAME.getD ""
  let symbol := ann.SCRIP_CD.getD ""
  let date := ann.NEWS_DT.getD ""
  let attachment := ann.ATTACHMENTNAME.getD ""
  let year := pyTake 4 date
  let month := pySlice 5 7 date
  if isFinancialAnnouncement category subject then
    match parse_iso_datetime date with
    | .error _ => .error .dateParseError
    | .ok parsedDate =>
      if attachment ≠ "" then
        let pdfUrl := bseAttachmentLive ++ "/" ++ attachment
        match downloadAndStorePdf env pdfUrl symbol date with
        | none => .error .noneLowerCrash
        | some m1 =>
          let minioPath : Option String :=
            if pyLower m1 = "pdf moved" then
              downloadAndStorePdf env
                (bseAttachmentMoved ++ "/" ++ year ++ "/" ++ month ++ "/" ++ attachment)
                symbol date
            else some m1
          let stored := match minioPath with
            | some p => p ≠ ""
            | none => false
          let extracted := extractFinancialInfoFromText ann
          .ok (some
            ({ symbol := symbol
               company := company
               category := category
               subject := ann.NEWSSUB.getD ""
               date := parsedDate
               attachment_name := attachment
               confidence := determineConfidence category subject
               extracted_data := extracted
               pdf_url := some pdfUrl
               processing_status := if extracted.isSome then "success" else "no_data_found"
               attach := some ⟨stored, minioPath⟩ },
             [⟨symbol, parsedDate, minioPath, stored⟩]))
      else
        .ok (some
          ({ symbol := symbol
             company := company
             category := category
             subject := ann.NEWSSUB.getD ""
             date := parsedDate
             attachment_name := attachment
             confidence := determineConfidence category subject
             extracted_data := none
             pdf_url := none
             processing_status := "pending"
             attach := none },
           []))
  else .ok none

/-- `FinancialDataProcessor.process_announcements`
(financial_data_processor.py:65-149): the accumulated `finance_data` list
together with all attachment-status patches, or the first escaping
exception. -/
def processAnnouncements (env : DlEnv) :
    List AnnRecord → Except ProcErr (List ProcessedData × List Patch)
  | [] => .ok ([], [])
  | a :: rest =>
    match processOne env a with
    | .error e => .error e
    | .ok none => processAnnouncements env rest
    | .ok (some (pd, ps)) =>
      match processAnnouncements env rest with
      | .error e => .error e
      | .ok (l, pl) => .ok (pd :: l, ps ++ pl)

/-! ## Shared concrete test fixtures -/

/-- A fixed wall-clock instant. -/
def wallClockA : DateTime := ⟨2025, 1, 1, 0, 0, 0, 0⟩

/-- A different wall-clock instant. -/
def wallClockB : DateTime := ⟨2026, 2, 2, 1, 1, 1, 0⟩

/-- A well-formed filing timestamp used by several witnesses. -/
def sampleFilingDate : DateTime := ⟨2025, 6, 30, 14, 30, 0, 0⟩

/-- A valid financial announcement carrying an attachment. -/
def annWithAttachment : AnnRecord :=
  { SCRIP_CD := some "500325", NEWS_DT := some "2025-06-30T14:30:00",
    CATEGORYNAME := some "Result", SLONGNAME := some "RIL",
    NEWSSUB := some "Results", ATTACHMENTNAME := some "x.pdf" }

/-- A valid financial announcement without an attachment. -/
def annPlain : AnnRecord :=
  { SCRIP_CD := some "500112", NEWS_DT := some "2025-06-30T15:30:00",
    CATEGORYNAME := some "Result", SLONGNAME := some "SBI",
    NEWSSUB := some "Results" }

/-- An announcement record whose symbol is missing. -/
def annMissingSymbol : AnnRecord :=
  { NEWS_DT := some "2025-06-30T14:30:00", CATEGORYNAME := some "Result",
    SLONGNAME := some "NN", NEWSSUB := some "Results" }

/-- An oracle under which session warm-up succeeds, nothing is cached, and
every request is answered 500, so every download exhausts its retries. -/
def envAllFail : DlEnv := ⟨true, fun _ => false, fun _ _ => ⟨500, "", ""⟩, wallClockA⟩

/-- An oracle under which session warm-up succeeds, nothing is cached, and
every request is answered 404. -/
def envAll404 : DlEnv := ⟨true, fun _ => false, fun _ _ => ⟨404, "", ""⟩, wallClockA⟩

/-! ## Association-table lemmas

Throughout, `α` is the row type and tables are well-formed when their key
lists are `Nodup` (the database enforces this through the unique index). -/

section TableLemmas

variable {α : Type}

/-- The `ON CONFLICT` test: the key occurs among the table's keys. -/
theorem any_key_iff (t : List (RowKey × α)) (k : RowKey) :
    (t.any fun p => p.1 = k) = true ↔ k ∈ t.map Prod.fst := by
  rw [List.any_eq_true]
  constructor
  · rintro ⟨p, hp, hpk⟩
    have hk : p.1 = k := by simpa using hpk
    exact hk ▸ List.mem_map_of_mem Prod.fst hp
  · intro h
    rcases List.mem_map.mp h with ⟨p, hp, hpk⟩
    exact ⟨p, hp, by simp [hpk]⟩

/-- Upserting keeps the key list when the key is present and appends it
otherwise. -/
theorem keys_upsertA (t : List (RowKey × α)) (k : RowKey) (v : α) :
    (upsertA t k v).map Prod.fst =
      if k ∈ t.map Prod.fst then t.map Prod.fst else t.map Prod.fst ++ [k] := by
  by_cases hmem : k ∈ t.map Prod.fst
  · rw [if_pos hmem]
    rw [upsertA, if_pos ((any_key_iff t k).mpr hmem)]
    rw [List.map_map]
    refine List.map_congr_left ?_
    intro p _
    by_cases hp : p.1 = k
    · simp [hp]
    · simp [hp]
  · rw [if_neg hmem]
    rw [upsertA, if_neg (fun hc => hmem ((any_key_iff t k).mp hc))]
    simp

/-- Membership in the upserted table's keys. -/
theorem mem_keys_upsertA (t : List (RowKey × α)) (k k0 : RowKey) (v : α)
    (h : k ∈ (upsertA t k0 v).map Prod.fst) :
    k ∈ t.map Prod.fst ∨ k = k0 := by
  rw [keys_upsertA] at h
  by_cases hmem : k0 ∈ t.map Prod.fst
  · rw [if_pos hmem] at h
    exact Or.inl h
  · rw [if_neg hmem] at h
    rcases List.mem_append.mp h with h | h
    · exact Or.inl h
    · exact Or.inr (List.mem_singleton.mp h)

/-- Upserting never removes a key. -/
theorem keys_upsertA_mono (t : List (RowKey × α)) (k k0 : RowKey) (v : α)
    (h : k ∈ t.map Prod.fst) : k ∈ (upsertA t k0 v).map Prod.fst := by
  rw [keys_upsertA]
  by_cases hmem : k0 ∈ t.map Prod.fst
  · rwa [if_pos hmem]
  · rw [if_neg hmem]
    exact List.mem_append.mpr (Or.inl h)

/-- The upserted key is present afterwards. -/
theorem key_mem_upsertA (t : List (RowKey × α)) (k : RowKey) (v : α) :
    k ∈ (upsertA t k v).map Prod.fst := by
  rw [keys_upsertA]
  by_cases hmem : k ∈ t.map Prod.fst
  · rwa [if_pos hmem]
  · rw [if_neg hmem]
    exact List.mem_append.mpr (Or.inr (List.mem_singleton.mpr rfl))

/-- Upserting preserves key uniqueness. -/
theorem nodup_upsertA (t : List (RowKey × α)) (k : RowKey) (v : α)
    (h : (t.map Prod.fst).Nodup) : ((upsertA t k v).map Prod.fst).Nodup := by
  rw [keys_upsertA]
  by_cases hmem : k ∈ t.map Prod.fst
  · rwa [if_pos hmem]
  · rw [if_neg hmem]
    simp [List.nodup_append, h, hmem]

/-- Lookup on a cons cell. -/
theorem lookupA_cons (p : RowKey × α) (t : List (RowKey × α)) (k : RowKey) :
    lookupA (p :: t) k = if p.1 = k then some p.2 else lookupA t k := by
  by_cases hp : p.1 = k
  · simp [lookupA, List.find?_cons, hp]
  · simp [lookupA, List.find?_cons, hp]

/-- Lookup misses exactly the absent keys. -/
theorem lookupA_eq_none (t : List (RowKey × α)) (k : RowKey) :
    lookupA t k = none ↔ k ∉ t.map Prod.fst := by
  induction t with
  | nil => simp [lookupA]
  | cons p t ih =>
    rw [lookupA_cons, List.map_cons]
    by_cases hp : p.1 = k
    · simp [hp]
    · simp only [hp, if_false, List.mem_cons, ih]
      constructor
      · intro h hk
        rcases hk with hk | hk
        · exact hp hk.symm
        · exact h hk
      · intro h hk
        exact h (Or.inr hk)

/-- Lookup through the append half of an upsert. -/
theorem lookupA_append_single (t : List (RowKey × α)) (k0 k : RowKey) (v : α) :
    lookupA (t ++ [(k0, v)]) k =
      match lookupA t k with
      | some w => some w
      | none => if k0 = k then some v else none := by
  induction t with
  | nil => simp [lookupA_cons, lookupA]
  | cons p t ih =>
    rw [List.cons_append, lookupA_cons, lookupA_cons]
    by_cases hp : p.1 = k
    · simp [hp]
    · simp only [hp, if_false]
      exact ih

/-- Lookup of an untouched key through the replace half of an upsert. -/
theorem lookupA_replace_ne (t : List (RowKey × α)) (k0 k : RowKey) (v : α)
    (h : k ≠ k0) :
    lookupA (t.map fun p => if p.1 = k0 then (k0, v) else p) k = lookupA t k := by
  induction t with
  | nil => simp [lookupA]
  | cons p t ih =>
    rw [List.map_cons, lookupA_cons, lookupA_cons]
    by_cases hp : p.1 = k0
    · have e1 : (if p.1 = k0 then (k0, v) else p) = (k0, v) := if_pos hp
      rw [e1, if_neg (fun hk => h (show k = k0 from hk.symm)),
        if_neg (fun hk => h ((show k = p.1 from hk.symm).trans hp))]
      exact ih
    · have e1 : (if p.1 = k0 then (k0, v) else p) = p := if_neg hp
      rw [e1]
      by_cases hpk : p.1 = k
      · rw [if_pos hpk, if_pos hpk]
      · rw [if_neg hpk, if_neg hpk]
        exact ih

/-- Lookup of the replaced key through the replace half of an upsert. -/
theorem lookupA_replace_self (t : List (RowKey × α)) (k0 : RowKey) (v : α)
    (hmem : k0 ∈ t.map Prod.fst) :
    lookupA (t.map fun p => if p.1 = k0 then (k0, v) else p) k0 = some v := by
  induction t with
  | nil => simp at hmem
  | cons p t ih =>
    rw [List.map_cons, lookupA_cons]
    by_cases hp : p.1 = k0
    · have h1 : (if p.1 = k0 then (k0, v) else p) = (k0, v) := if_pos hp
      rw [h1, if_pos rfl]
    · have h1 : (if p.1 = k0 then (k0, v) else p) = p := if_neg hp
      rw [h1, if_neg hp]
      rw [List.map_cons] at hmem
      rcases List.mem_cons.mp hmem with h | h
      · exact absurd h.symm hp
      · exact ih h

/-- Looking up the upserted key yields the new value. -/
theorem lookupA_upsertA_self (t : List (RowKey × α)) (k : RowKey) (v : α) :
    lookupA (upsertA t k v) k = some v := by
  rw [upsertA]
  by_cases hmem : k ∈ t.map Prod.fst
  · rw [if_pos ((any_key_iff t k).mpr hmem)]
    exact lookupA_replace_self t k v hmem
  · rw [if_neg (fun hc => hmem ((any_key_iff t k).mp hc))]
    rw [lookupA_append_single, (lookupA_eq_none t k).mpr hmem, if_pos rfl]

/-- Looking up a different key is unaffected by an upsert. -/
theorem lookupA_upsertA_ne (t : List (RowKey × α)) (k k0 : RowKey) (v : α)
    (h : k ≠ k0) : lookupA (upsertA t k0 v) k = lookupA t k := by
  rw [upsertA]
  by_cases hany : (t.any fun p => p.1 = k0) = true
  · rw [if_pos hany]
    exact lookupA_replace_ne t k0 k v h
  · rw [if_neg hany]
    rw [lookupA_append_single]
    cases hl : lookupA t k with
    | some w => rfl
    | none =>
      show (if k0 = k then some v else none) = none
      exact if_neg (fun hk => h (show k = k0 from hk.symm))

/-- Unfolding one write of a write list. -/
theorem runUpserts_cons (t : List (RowKey × α)) (p : RowKey × α)
    (rows : List (RowKey × α)) :
    runUpserts t (p :: rows) = runUpserts (upsertA t p.1 p.2) rows := rfl

/-- Lookup after running a write list: the last write to the key wins,
otherwise the original table answers. -/
theorem lookupA_runUpserts (rows : List (RowKey × α)) :
    ∀ (t : List (RowKey × α)) (k : RowKey),
      lookupA (runUpserts t rows) k =
        match lastVal rows k with
        | some v => some v
        | none => lookupA t k := by
  induction rows with
  | nil => intro t k; rfl
  | cons p rows ih =>
    intro t k
    rw [runUpserts_cons, ih]
    show _ = (match (match lastVal rows k with
               | some v => some v
               | none => if p.1 = k then some p.2 else none) with
              | some v => some v
              | none => lookupA t k)
    cases lastVal rows k with
    | some v => rfl
    | none =>
      by_cases hp : p.1 = k
      · rw [if_pos hp]
        subst hp
        exact lookupA_upsertA_self t p.1 p.2
      · rw [if_neg hp]
        exact lookupA_upsertA_ne t k p.1 p.2 (fun hk => hp hk.symm)

/-- Running a write list whose keys are all present keeps the key list. -/
theorem keys_runUpserts_of_mem (rows : List (RowKey × α)) :
    ∀ (t : List (RowKey × α)),
      (∀ p ∈ rows, p.1 ∈ t.map Prod.fst) →
      (runUpserts t rows).map Prod.fst = t.map Prod.fst := by
  induction rows with
  | nil => intro t _; rfl
  | cons p rows ih =>
    intro t hmem
    rw [runUpserts_cons]
    have hp : p.1 ∈ t.map Prod.fst := hmem p (List.mem_cons_self p rows)
    have hkeys : (upsertA t p.1 p.2).map Prod.fst = t.map Prod.fst := by
      rw [keys_upsertA, if_pos hp]
    rw [ih (upsertA t p.1 p.2) (fun q hq => by
      rw [hkeys]; exact hmem q (List.mem_cons_of_mem p hq))]
    exact hkeys

/-- Keys only accumulate while running a write list. -/
theorem keys_runUpserts_mono (rows : List (RowKey × α)) :
    ∀ (t : List (RowKey × α)) (k : RowKey),
      k ∈ t.map Prod.fst → k ∈ (runUpserts t rows).map Prod.fst := by
  induction rows with
  | nil => intro t k hk; exact hk
  | cons p rows ih =>
    intro t k hk
    rw [runUpserts_cons]
    exact ih _ k (keys_upsertA_mono t k p.1 p.2 hk)

/-- Every written key is present after running the write list. -/
theorem written_keys_mem (rows : List (RowKey × α)) :
    ∀ (t : List (RowKey × α)) (p : RowKey × α), p ∈ rows →
      p.1 ∈ (runUpserts t rows).map Prod.fst := by
  induction rows with
  | nil => intro t p hp; simp at hp
  | cons q rows ih =>
    intro t p hp
    rw [runUpserts_cons]
    rcases List.mem_cons.mp hp with h | h
    · subst h
      exact keys_runUpserts_mono rows _ p.1 (key_mem_upsertA t p.1 p.2)
    · exact ih _ p h

/-- Running a write list preserves key uniqueness. -/
theorem nodup_runUpserts (rows : List (RowKey × α)) :
    ∀ (t : List (RowKey × α)), (t.map Prod.fst).Nodup →
      ((runUpserts t rows).map Prod.fst).Nodup := by
  induction rows with
  | nil => intro t h; exact h
  | cons p rows ih =>
    intro t h
    rw [runUpserts_cons]
    exact ih _ (nodup_upsertA t p.1 p.2 h)

/-- Two tables with unique keys, the same key list and the same lookups are
equal. -/
theorem table_ext : ∀ (s t : List (RowKey × α)),
    (s.map Prod.fst).Nodup →
    s.map Prod.fst = t.map Prod.fst →
    (∀ k, lookupA s k = lookupA t k) →
    s = t := by
  intro s
  induction s with
  | nil =>
    intro t _ hkeys _
    have h0 : t.map Prod.fst = [] := hkeys.symm
    cases t with
    | nil => rfl
    | cons q t => simp at h0
  | cons p s ih =>
    intro t hnd hkeys hlook
    cases t with
    | nil => simp at hkeys
    | cons q t =>
      rw [List.map_cons, List.map_cons] at hkeys
      have hk : p.1 = q.1 := (List.cons.injEq _ _ _ _).mp hkeys |>.1
      have hkeys' : s.map Prod.fst = t.map Prod.fst :=
        (List.cons.injEq _ _ _ _).mp hkeys |>.2
      have hv : p.2 = q.2 := by
        have h1 := hlook p.1
        rw [lookupA_cons, lookupA_cons, if_pos rfl, if_pos hk.symm] at h1
        exact Option.some_inj.mp h1
      have hnd' : (s.map Prod.fst).Nodup := (List.nodup_cons.mp (by
        rw [List.map_cons] at hnd; exact hnd)).2
      have hpnot : p.1 ∉ s.map Prod.fst := (List.nodup_cons.mp (by
        rw [List.map_cons] at hnd; exact hnd)).1
      have htail : s = t := by
        refine ih t hnd' hkeys' ?_
        intro k
        by_cases hkp : k = p.1
        · rw [hkp, (lookupA_eq_none s p.1).mpr hpnot,
            (lookupA_eq_none t p.1).mpr (hkeys' ▸ hpnot)]
        · have h1 := hlook k
          rw [lookupA_cons, lookupA_cons,
            if_neg (fun hq => hkp hq.symm),
            if_neg (fun hq => hkp (hq.symm.trans hk.symm))] at h1
          exact h1
      have hpq : p = q := Prod.ext hk hv
      rw [hpq, htail]

/-- Running the same write list twice is the same as running it once
(the idempotence core of C5). -/
theorem runUpserts_idem (rows t : List (RowKey × α))
    (hnd : (t.map Prod.fst).Nodup) :
    runUpserts (runUpserts t rows) rows = runUpserts t rows := by
  refine table_ext _ _ ?_ ?_ ?_
  · exact nodup_runUpserts rows _ (nodup_runUpserts rows t hnd)
  · exact keys_runUpserts_of_mem rows _ (fun p hp => written_keys_mem rows t p hp)
  · intro k
    rw [lookupA_runUpserts, lookupA_runUpserts]
    cases lastVal rows k with
    | some v => rfl
    | none => rfl

end TableLemmas

/-! ## C1 — snapshots require a parent announcement -/

/-- `snapshotHasParent` through a successful preparation. -/
theorem snapshotHasParent_eq (annKeys : List RowKey) (r : SnapRecord) (d : SnapData)
    (heq : prepareSnapshotData r = .ok d) :
    snapshotHasParent annKeys r = snapParentFound annKeys d := by
  unfold snapshotHasParent
  rw [heq]

/-- `snapParentFound` on a non-`NULL` filing date. -/
theorem snapParentFound_some (annKeys : List RowKey) (d : SnapData) (fd : DateTime)
    (hfd : d.filing_date = some fd) :
    snapParentFound annKeys d = decide ((d.symbol, fd) ∈ annKeys) := by
  unfold snapParentFound
  rw [hfd]

/-- `snapParentFound` on a `NULL` filing date. -/
theorem snapParentFound_none (annKeys : List RowKey) (d : SnapData)
    (hfd : d.filing_date = none) :
    snapParentFound annKeys d = false := by
  unfold snapParentFound
  rw [hfd]

/-- Loop invariant of `insert_financial_snapshots`: on success every key of
the committed table was already present or has a parent announcement, and
the processed count counts exactly the records that passed the parent
check. -/
theorem insertFinancialSnapshotsGo_spec (annKeys : List RowKey) :
    ∀ (batch : List SnapRecord) (t : SnapTable) (n : Nat) (t' : SnapTable) (n' : Nat),
      insertFinancialSnapshotsGo annKeys t n batch = .ok (t', n') →
      (∀ k ∈ t'.map Prod.fst, k ∈ t.map Prod.fst ∨ k ∈ annKeys) ∧
      n' = n + batch.countP (snapshotHasParent annKeys) := by
  intro batch
  induction batch with
  | nil =>
    intro t n t' n' h
    simp only [insertFinancialSnapshotsGo, Except.ok.injEq, Prod.mk.injEq] at h
    obtain ⟨rfl, rfl⟩ := h
    exact ⟨fun k hk => Or.inl hk, by simp⟩
  | cons r rs ih =>
    intro t n t' n' h
    rw [insertFinancialSnapshotsGo] at h
    split at h
    · simp at h
    next d heq =>
      split at h
      next fd hfd =>
        split at h
        next hmem =>
          obtain ⟨hkeys, hcount⟩ := ih _ _ t' n' h
          have htrue : snapshotHasParent annKeys r = true := by
            rw [snapshotHasParent_eq annKeys r d heq,
              snapParentFound_some annKeys d fd hfd]
            exact decide_eq_true hmem
          refine ⟨?_, ?_⟩
          · intro k hk
            rcases hkeys k hk with hk' | hk'
            · rcases mem_keys_upsertA t k (d.symbol, fd) d hk' with h2 | h2
              · exact Or.inl h2
              · exact Or.inr (h2 ▸ hmem)
            · exact Or.inr hk'
          · have hc : List.countP (snapshotHasParent annKeys) (r :: rs) =
                List.countP (snapshotHasParent annKeys) rs + 1 := by
              simp [List.countP_cons, htrue]
            omega
        next hmem =>
          obtain ⟨hkeys, hcount⟩ := ih t n t' n' h
          have hfalse : snapshotHasParent annKeys r = false := by
            rw [snapshotHasParent_eq annKeys r d heq,
              snapParentFound_some annKeys d fd hfd]
            exact decide_eq_false hmem
          refine ⟨hkeys, ?_⟩
          have hc : List.countP (snapshotHasParent annKeys) (r :: rs) =
              List.countP (snapshotHasParent annKeys) rs := by
            simp [List.countP_cons, hfalse]
          omega
      next hfd =>
        obtain ⟨hkeys, hcount⟩ := ih t n t' n' h
        have hfalse : snapshotHasParent annKeys r = false := by
          rw [snapshotHasParent_eq annKeys r d heq,
            snapParentFound_none annKeys d hfd]
        refine ⟨hkeys, ?_⟩
        have hc : List.countP (snapshotHasParent annKeys) (r :: rs) =
            List.countP (snapshotHasParent annKeys) rs := by
          simp [List.countP_cons, hfalse]
        omega

/-- C1: whenever `insert_financial_snapshots` commits, every key of the
resulting snapshots table either existed before the batch or has a matching
announcement — a snapshot whose parent lookup finds nothing contributes no
row — and the processed count counts exactly the snapshots whose parent
exists, so a skipped snapshot contributes no processed count either. -/
theorem c1_snapshot_referential_integrity (annKeys : List RowKey) (t : SnapTable)
    (batch : List SnapRecord) (t' : SnapTable) (n' : Nat)
    (h : insertFinancialSnapshots annKeys t batch = .ok (t', n')) :
    (∀ k ∈ t'.map Prod.fst, k ∈ t.map Prod.fst ∨ k ∈ annKeys) ∧
    n' = batch.countP (snapshotHasParent annKeys) := by
  obtain ⟨hkeys, hcount⟩ :=
    insertFinancialSnapshotsGo_spec annKeys batch t 0 t' n' h
  exact ⟨hkeys, by simpa using hcount⟩

/-- The parent key present in the C1 witness. -/
def c1AnnKeys : List RowKey := [("A", sampleFilingDate)]

/-- A snapshot whose parent announcement exists. -/
def c1Child : SnapRecord := { symbol := some "A", date := some (.dt sampleFilingDate) }

/-- A snapshot with no parent announcement. -/
def c1Orphan : SnapRecord := { symbol := some "B", date := some (.dt sampleFilingDate) }

/-- The row the C1 witness batch commits. -/
def c1Row : SnapData :=
  { symbol := "A", filing_date := some sampleFilingDate, fy_end := none,
    quarter := none, audit_status := none, total_debt := none,
    cash_equiv := none, revenue := none, interest_income := none,
    dividend_income := none }

/-- The table the C1 witness batch commits. -/
def c1Table : SnapTable := [(("A", sampleFilingDate), c1Row)]

/-- C1 witness: a batch of one parented and one orphan snapshot commits
exactly the parented row and counts one processed record. -/
theorem c1_snapshot_referential_integrity_witness :
    insertFinancialSnapshots c1AnnKeys [] [c1Child, c1Orphan] = .ok (c1Table, 1) ∧
    ((∀ k ∈ c1Table.map Prod.fst, k ∈ ([] : SnapTable).map Prod.fst ∨ k ∈ c1AnnKeys) ∧
     1 = [c1Child, c1Orphan].countP (snapshotHasParent c1AnnKeys)) :=
  ⟨rfl, c1_snapshot_referential_integrity c1AnnKeys [] [c1Child, c1Orphan] c1Table 1 rfl⟩

/-! ## C5 — idempotence of the announcements upsert -/

/-- `insert_announcements` is the batch preparation followed by running all
upserts, counting one processed record per prepared row. -/
theorem insertAnnouncementsGo_eq_prep :
    ∀ (batch : List AnnRecord) (t : AnnTable) (n : Nat),
      insertAnnouncementsGo t n batch =
        match prepAnnRows batch with
        | .error e => .error e
        | .ok rows => .ok (runUpserts t rows, n + rows.length) := by
  intro batch
  induction batch with
  | nil => intro t n; simp [insertAnnouncementsGo, prepAnnRows, runUpserts]
  | cons r rs ih =>
    intro t n
    rw [insertAnnouncementsGo, prepAnnRows]
    cases hp : prepareAnnouncementData r with
    | error e => rfl
    | ok od =>
      cases od with
      | none => rfl
      | some row =>
        dsimp only
        rw [ih]
        cases hrs : prepAnnRows rs with
        | error e => rfl
        | ok rows =>
          dsimp only
          have harith : n + 1 + rows.length = n + (rows.length + 1) := by omega
          rw [harith]
          rfl

/-- Successful preparation preserves the batch length. -/
theorem prepAnnRows_length :
    ∀ (batch : List AnnRecord) (rows : List (RowKey × AnnData)),
      prepAnnRows batch = .ok rows → rows.length = batch.length := by
  intro batch
  induction batch with
  | nil =>
    intro rows h
    simp only [prepAnnRows, Except.ok.injEq] at h
    rw [← h]
    rfl
  | cons r rs ih =>
    intro rows h
    rw [prepAnnRows] at h
    cases hp : prepareAnnouncementData r with
    | error e => rw [hp] at h; simp at h
    | ok od =>
      rw [hp] at h
      cases od with
      | none => simp at h
      | some row =>
        cases hrs : prepAnnRows rs with
        | error e => rw [hrs] at h; simp at h
        | ok rows' =>
          rw [hrs] at h
          simp only [Except.ok.injEq] at h
          rw [← h, List.length_cons, ih rows' hrs, List.length_cons]

/-- C5: if a batch commits (every record prepared, table keys unique), the
processed count is the batch size, and re-running the identical batch
commits again, leaves the table exactly as after the first run, and
processes the same count — the second run adds no row. -/
theorem c5_insert_announcements_idempotent (t : AnnTable) (batch : List AnnRecord)
    (t1 : AnnTable) (n1 : Nat)
    (hnd : (t.map Prod.fst).Nodup)
    (h1 : insertAnnouncements t batch = .ok (t1, n1)) :
    n1 = batch.length ∧
    insertAnnouncements t1 batch = .ok (t1, batch.length) := by
  rw [insertAnnouncements, insertAnnouncementsGo_eq_prep] at h1
  cases hp : prepAnnRows batch with
  | error e => rw [hp] at h1; simp at h1
  | ok rows =>
    rw [hp] at h1
    simp only [Except.ok.injEq, Prod.mk.injEq] at h1
    obtain ⟨ht, hn⟩ := h1
    have hlen := prepAnnRows_length batch rows hp
    constructor
    · omega
    · rw [insertAnnouncements, insertAnnouncementsGo_eq_prep, hp]
      dsimp only
      rw [← ht, runUpserts_idem rows t hnd]
      have h0 : 0 + rows.length = batch.length := by omega
      rw [h0]

/-- The table committed by the C5 witness run. -/
def c5Table : AnnTable :=
  [(("500112", ⟨2025, 6, 30, 15, 30, 0, 0⟩),
    { symbol := "500112", company_name := "SBI",
      filing_date := ⟨2025, 6, 30, 15, 30, 0, 0⟩, category := "Result",
      headline := "Results", confidence := "HIGH", raw_json := annPlain,
      minio_path := none, pdf_stored := false })]

/-- C5 witness: a singleton valid batch against the empty table; re-running
it returns the identical table and count. -/
theorem c5_insert_announcements_idempotent_witness :
    (([] : AnnTable).map Prod.fst).Nodup ∧
    insertAnnouncements [] [annPlain] = .ok (c5Table, 1) ∧
    (1 = [annPlain].length ∧
     insertAnnouncements c5Table [annPlain] = .ok (c5Table, [annPlain].length)) :=
  ⟨List.nodup_nil, rfl,
   c5_insert_announcements_idempotent [] [annPlain] c5Table 1 List.nodup_nil rfl⟩

/-! ## C6 — category-based classification and confidence -/

/-- C6 counterexample: the claim says every category in the classifier's
results set (`'Result'` and `'Results'`) gets confidence `HIGH`; but a
`'Results'` announcement, while classified financial, is assigned `LOW` by
`_determine_confidence`, which compares only against the singular
`'Result'`. -/
theorem c6_results_low_counterexample :
    isFinancialAnnouncement "Results" "quarterly results update" = true ∧
    determineConfidence "Results" "quarterly results update" = "LOW" := by
  exact ⟨rfl, rfl⟩

/-- C6 (amended): every announcement whose category is in the results set
`{'Result', 'Results'}` is classified financial regardless of the headline;
`_determine_confidence` assigns `HIGH` only for the singular `'Result'`,
while `'Results'` is assigned `LOW`. -/
theorem c6_category_confidence (subject : String) :
    isFinancialAnnouncement "Result" subject = true ∧
    determineConfidence "Result" subject = "HIGH" ∧
    isFinancialAnnouncement "Results" subject = true ∧
    determineConfidence "Results" subject = "LOW" := by
  exact ⟨rfl, rfl, rfl, rfl⟩

/-! ## C7 — extraction from the reference headline -/

/-- The reference extractor input of the claim. -/
def c7Text : String := "unaudited standalone results for quarter ended 30.06.2025"

/-- The announcement carrying the reference headline (no `MORE` body). -/
def c7Record : AnnRecord := { NEWSSUB := some c7Text }

/-- C7 counterexample: the claim says the extracted quarter is null for the
reference text, but `_extract_quarter`'s lazy pattern `quarter.*?([1-4])`
captures the `3` of `30.06.2025`, so the extractor returns quarter
`"Q3"`. -/
theorem c7_quarter_not_null_counterexample :
    (extractFinancialInfoFromText c7Record).map ExtractedData.quarter =
      some (some "Q3") := by decide

/-- C7 (amended): on the reference text
`"unaudited standalone results for quarter ended 30.06.2025"` the extractor
returns type `standalone`, audit status `unaudited`, period `30.06.2025` —
and quarter `"Q3"` (captured from the `3` of `30.06.2025` by the lazy
`quarter.*?([1-4])` pattern), not null. -/
theorem c7_reference_extraction :
    extractFinancialInfoFromText c7Record = some
      { period := some "30.06.2025", type := some "standalone",
        financial_year := none, quarter := some "Q3",
        audit_status := some "unaudited" } := by decide

/-! ## C8 — attachment path determinism -/

/-- C8 counterexample: the claim quantifies over every
`(symbol, filing_date, confidence)` triple, but when the filing date does
not parse, `generate_pdf_path` falls back to `datetime.now()`, so two calls
with identical arguments at different wall-clock instants return different
paths. -/
theorem c8_wall_clock_counterexample :
    generatePdfPath wallClockA "X" "garbage" "HIGH" ≠
      generatePdfPath wallClockB "X" "garbage" "HIGH" := by decide

/-- C8 (amended): for every triple whose filing date `fromisoformat`
accepts (after the `Z` → `+00:00` rewrite), `generate_pdf_path` is
deterministic — the produced path does not depend on the wall clock, hence
two calls with identical arguments return the identical path string. -/
theorem c8_path_deterministic (symbol filingDate confidence : String)
    (now1 now2 : DateTime)
    (h : (fromisoformat (replaceZ filingDate)).isSome = true) :
    generatePdfPath now1 symbol filingDate confidence =
      generatePdfPath now2 symbol filingDate confidence := by
  cases hfd : fromisoformat (replaceZ filingDate) with
  | none => rw [hfd] at h; simp at h
  | some d => simp only [generatePdfPath, hfd, Option.getD_some]

/-- C8 witness: the well-formed filing date `2025-06-30T14:30:00` parses,
and the path is identical across two different wall clocks. -/
theorem c8_path_deterministic_witness :
    (fromisoformat (replaceZ "2025-06-30T14:30:00")).isSome = true ∧
    generatePdfPath wallClockA "500325" "2025-06-30T14:30:00" "HIGH" =
      generatePdfPath wallClockB "500325" "2025-06-30T14:30:00" "HIGH" :=
  ⟨by decide,
   c8_path_deterministic "500325" "2025-06-30T14:30:00" "HIGH" wallClockA wallClockB
     (by decide)⟩

/-! ## C9 — blocked-status backoff -/

/-- C9: a 403/429/503 response makes `_make_request` reinitialize the
session and retry, after a delay `(2 ** attempt) * uniform(10, 20)` whose
expected value (`2 ^ attempt * 15` s, in tenths of a second here) grows
strictly monotonically in the attempt index; in particular attempt 0 waits
strictly less in expectation than attempt 2. -/
theorem c9_blocked_backoff (status attempt i j : Nat)
    (hs : status = 403 ∨ status = 429 ∨ status = 503) (hij : i < j) :
    nseHandleStatus status attempt = .reinitSessionThenRetry attempt ∧
    nseExpectedBlockedWaitTenths i < nseExpectedBlockedWaitTenths j ∧
    nseExpectedBlockedWaitTenths 0 < nseExpectedBlockedWaitTenths 2 := by
  refine ⟨?_, ?_, by decide⟩
  · rcases hs with h | h | h <;> subst h <;> rfl
  · have h2 : (2 : Nat) ^ i < 2 ^ j := Nat.pow_lt_pow_right one_lt_two hij
    exact mul_lt_mul_of_pos_right h2 (by norm_num)

/-- C9 witness: instantiated at status 403, attempts 0 and 2. -/
theorem c9_blocked_backoff_witness :
    (403 = 403 ∨ 403 = 429 ∨ 403 = 503) ∧ 0 < 2 ∧
    (nseHandleStatus 403 0 = .reinitSessionThenRetry 0 ∧
     nseExpectedBlockedWaitTenths 0 < nseExpectedBlockedWaitTenths 2 ∧
     nseExpectedBlockedWaitTenths 0 < nseExpectedBlockedWaitTenths 2) :=
  ⟨Or.inl rfl, by decide, c9_blocked_backoff 403 0 0 2 (Or.inl rfl) (by decide)⟩

/-! ## C4 — date-range chunking -/

/-- A successful `timedelta` addition is ordinary addition within the
`datetime` range. -/
theorem pyAddDays_ok (a k b : Nat) (h : pyAddDays a k = .ok b) :
    b = a + k ∧ a + k ≤ pyDateMax := by
  rw [pyAddDays] at h
  split at h
  next hle =>
    simp only [Except.ok.injEq] at h
    exact ⟨h.symm, hle⟩
  next => simp at h

/-- Once the cursor has passed the end of the range, the loop produces
nothing and cannot raise. -/
theorem chunkAux_ok_nil_of_gt (m e : Nat) (fuel cur : Nat) (h : e < cur) :
    chunkAux m e fuel cur = .ok [] := by
  cases fuel with
  | zero => rfl
  | succ fuel => simp [chunkAux, Nat.not_le.mpr h]

/-- Structural invariants of the chunking loop, for any sufficient fuel:
whenever the loop returns (no `timedelta` addition overflowed), the first
chunk starts at the cursor, consecutive chunks are day-adjacent, every
chunk is a well-formed sub-interval, earlier chunks end strictly before
later chunks start, and the covered days are exactly `[cur, ..., e]`. -/
theorem chunkAux_spec (m e : Nat) (hm : 1 ≤ m) :
    ∀ fuel cur cs, cur ≤ e → e + 1 - cur ≤ fuel →
      chunkAux m e fuel cur = .ok cs →
      (cs.head?.map Prod.fst = some cur) ∧
      List.Chain' (fun p q : Nat × Nat => q.1 = p.2 + 1) cs ∧
      (∀ p ∈ cs, cur ≤ p.1 ∧ p.1 ≤ p.2 ∧ p.2 ≤ e) ∧
      List.Pairwise (fun p q : Nat × Nat => p.2 < q.1) cs ∧
      cs.flatMap chunkDays = List.range' cur (e + 1 - cur) := by
  intro fuel
  induction fuel with
  | zero => intro cur cs hc hf h; omega
  | succ fuel ih =>
    intro cur cs hc hf h
    rw [chunkAux, if_pos hc] at h
    split at h
    · simp at h
    next sum heq1 =>
      split at h
      · simp at h
      next nxt heq2 =>
        split at h
        · simp at h
        next rest heq3 =>
          simp only [Except.ok.injEq] at h
          obtain ⟨hsum, hsumle⟩ := pyAddDays_ok cur (m - 1) sum heq1
          subst hsum
          obtain ⟨hnxt, hnxtle⟩ := pyAddDays_ok (min (cur + (m - 1)) e) 1 nxt heq2
          subst hnxt
          subst h
          have hcur_ce : cur ≤ min (cur + (m - 1)) e := by omega
          have hce_e : min (cur + (m - 1)) e ≤ e := Nat.min_le_right _ _
          by_cases hend : e < min (cur + (m - 1)) e + 1
          · -- the final chunk: the recursive call is empty
            have hce : min (cur + (m - 1)) e = e := by omega
            have h0 := chunkAux_ok_nil_of_gt m e fuel (min (cur + (m - 1)) e + 1) hend
            rw [h0] at heq3
            simp only [Except.ok.injEq] at heq3
            subst heq3
            refine ⟨rfl, ?_, ?_, ?_, ?_⟩
            · simp
            · intro p hp
              simp only [List.mem_singleton] at hp
              subst hp
              exact ⟨Nat.le_refl _, hcur_ce, hce_e⟩
            · simp
            · simp only [List.flatMap_cons, List.flatMap_nil, List.append_nil,
                chunkDays, hce]
          · -- an interior chunk followed by the rest of the range
            have hnext : min (cur + (m - 1)) e + 1 ≤ e := by omega
            have hfuel : e + 1 - (min (cur + (m - 1)) e + 1) ≤ fuel := by omega
            obtain ⟨ihHead, ihChain, ihBounds, ihPair, ihFlat⟩ :=
              ih _ rest hnext hfuel heq3
            refine ⟨rfl, ?_, ?_, ?_, ?_⟩
            · refine List.chain'_cons'.mpr ⟨?_, ihChain⟩
              intro b hb
              have hb' : rest.head? = some b := Option.mem_def.mp hb
              rw [hb'] at ihHead
              simpa using ihHead
            · intro p hp
              rcases List.mem_cons.mp hp with h | h
              · subst h; exact ⟨Nat.le_refl _, hcur_ce, hce_e⟩
              · have := ihBounds p h
                exact ⟨by omega, this.2.1, this.2.2⟩
            · refine List.pairwise_cons.mpr ⟨?_, ihPair⟩
              intro q hq
              have := ihBounds q hq
              omega
            · rw [List.flatMap_cons, ihFlat]
              have happ := List.range'_append_1 cur (min (cur + (m - 1)) e + 1 - cur)
                (e + 1 - (min (cur + (m - 1)) e + 1))
              rw [show cur + (min (cur + (m - 1)) e + 1 - cur) =
                    min (cur + (m - 1)) e + 1 by omega] at happ
              rw [show e + 1 - (min (cur + (m - 1)) e + 1) +
                    (min (cur + (m - 1)) e + 1 - cur) = e + 1 - cur by omega] at happ
              simpa [chunkDays] using happ

/-- C4 counterexample: the claim quantifies over every `max_days ≥ 1`, but
`_chunk_data_range` evaluates `current_day + timedelta(days=max_days-1)`
before the `min(..., end_date)` clamp, and that addition raises
`OverflowError` past `datetime.max` (year 9999): for the valid range
2025-01-01..2025-01-03 with `max_days = 4000000` the call raises instead
of returning the single chunk. -/
theorem c4_overflow_counterexample :
    dateOrdinal 2025 1 1 ≤ dateOrdinal 2025 1 3 ∧ 1 ≤ 4000000 ∧
    chunkDataRange (dateOrdinal 2025 1 1) (dateOrdinal 2025 1 3) 4000000 =
      .error () :=
  ⟨by decide, by decide, rfl⟩

/-- C4 (amended): for every valid range (`startDay ≤ endDay`) and every
`maxDays ≥ 1` for which `_chunk_data_range` returns at all (neither
`timedelta` addition of the loop overflows past `datetime.max`), the
returned sub-ranges are contiguous (each chunk starts the day after the
previous one ends), pairwise non-overlapping (each chunk ends strictly
before every later one starts), and their days union to exactly the days
of the original range; for `max_days` large enough that
`current_day + timedelta(days=max_days-1)` passes 9999-12-31, the call
raises `OverflowError` instead. -/
theorem c4_chunk_data_range_partitions (s e m : Nat) (cs : List (Nat × Nat))
    (hse : s ≤ e) (hm : 1 ≤ m)
    (h : chunkDataRange s e m = .ok cs) :
    List.Chain' (fun p q : Nat × Nat => q.1 = p.2 + 1) cs ∧
    List.Pairwise (fun p q : Nat × Nat => p.2 < q.1) cs ∧
    cs.flatMap chunkDays = List.range' s (e + 1 - s) := by
  obtain ⟨_, hchain, _, hpair, hflat⟩ :=
    chunkAux_spec m e hm (e + 1 - s) s cs hse (Nat.le_refl _) h
  exact ⟨hchain, hpair, hflat⟩

/-- C4 witness: the range of days 3..9 chunked with `max_days = 3`
returns, and its chunks partition the range. -/
theorem c4_chunk_data_range_witness :
    3 ≤ 9 ∧ 1 ≤ 3 ∧
    chunkDataRange 3 9 3 = .ok [(3, 5), (6, 8), (9, 9)] ∧
    (List.Chain' (fun p q : Nat × Nat => q.1 = p.2 + 1) [(3, 5), (6, 8), (9, 9)] ∧
     List.Pairwise (fun p q : Nat × Nat => p.2 < q.1) [(3, 5), (6, 8), (9, 9)] ∧
     ([(3, 5), (6, 8), (9, 9)] : List (Nat × Nat)).flatMap chunkDays =
       List.range' 3 (9 + 1 - 3)) :=
  ⟨by decide, by decide, rfl,
   c4_chunk_data_range_partitions 3 9 3 [(3, 5), (6, 8), (9, 9)]
     (by decide) (by decide) rfl⟩

/-! ## C3 — records missing the primary-key fields -/

/-- C3: the claim (and the code's own `SKIP rows that break the NOT-NULL
PK` comment) says a record missing its symbol is rejected and skipped while
the batch completes; in the code `_prepare_announcement_data` does return
the `None` skip marker, but `insert_announcements` never checks for it and
hands `None` to `cursor.execute`, which raises, rolls the batch back and
re-raises — so the whole batch aborts instead. -/
theorem c3_missing_symbol_aborts_batch :
    prepareAnnouncementData annMissingSymbol = .ok none ∧
    insertAnnouncements [] [annMissingSymbol, annWithAttachment] =
      .error .nullParams :=
  ⟨rfl, rfl⟩

/-! ## C10 — a double 404 is reported as a stored PDF -/

/-- minio_client.py:230-232: when warm-up succeeds, the path is not cached
and the first request answers 404, `download_and_store_pdf` returns the
sentinel `"PDF Moved"` without spending further retry budget. -/
theorem downloadAndStorePdf_404 (env : DlEnv) (url symbol filingDate : String)
    (hinit : env.initOk = true)
    (hcache : env.pdfOnStore (generatePdfPath env.now symbol filingDate "HIGH") = false)
    (hstatus : (env.http url 0).status = 404) :
    downloadAndStorePdf env url symbol filingDate = some "PDF Moved" := by
  simp only [downloadAndStorePdf]
  rw [hinit]
  rw [if_neg (by decide : ¬(true = false))]
  rw [hcache]
  rw [if_neg (by decide : ¬(false = true))]
  have hr : List.range 3 = [0, 1, 2] := rfl
  rw [hr]
  simp only [dlAttempts]
  rw [hstatus]
  rw [if_neg (by decide : ¬((404 : Nat) = 200)), if_neg (by decide : ¬((404 : Nat) = 403)),
    if_pos (rfl : (404 : Nat) = 404)]

/-- C10: for every financial announcement with an attachment whose filing
date parses, if session warm-up succeeds, the storage path is not cached
and both the primary and the historical-archive URL answer 404, then
`process_announcements` records the announcement with `pdf_stored = true`
and `minio_path = "PDF Moved"`, and patches exactly those values onto the
announcement row — the double miss is reported as a successful storage
result. -/
theorem c10_double_404_reported_as_stored
    (env : DlEnv) (scrip newsdt cat slong sub att : String) (d : DateTime)
    (hfin : isFinancialAnnouncement (pyStrip cat) (pyLower sub) = true)
    (hatt : att ≠ "")
    (hdate : parse_iso_datetime newsdt = .ok d)
    (hinit : env.initOk = true)
    (hcache : env.pdfOnStore (generatePdfPath env.now scrip newsdt "HIGH") = false)
    (h404a : (env.http (bseAttachmentLive ++ "/" ++ att) 0).status = 404)
    (h404b : (env.http (bseAttachmentMoved ++ "/" ++ pyTake 4 newsdt ++ "/" ++
      pySlice 5 7 newsdt ++ "/" ++ att) 0).status = 404) :
    (processAnnouncements env
        [{ SCRIP_CD := some scrip, NEWS_DT := some newsdt, CATEGORYNAME := some cat,
           SLONGNAME := some slong, NEWSSUB := some sub,
           ATTACHMENTNAME := some att }]).map
        (fun r => (r.1.map ProcessedData.attach, r.2)) =
      .ok ([some ⟨true, some "PDF Moved"⟩], [⟨scrip, d, some "PDF Moved", true⟩]) := by
  have hdl1 := downloadAndStorePdf_404 env (bseAttachmentLive ++ "/" ++ att)
    scrip newsdt hinit hcache h404a
  have hdl2 := downloadAndStorePdf_404 env (bseAttachmentMoved ++ "/" ++ pyTake 4 newsdt ++
    "/" ++ pySlice 5 7 newsdt ++ "/" ++ att) scrip newsdt hinit hcache h404b
  have hpml : pyLower "PDF Moved" = "pdf moved" := by decide
  simp only [processAnnouncements, processOne, Option.getD_some, hfin, hdate, ne_eq, hatt,
    not_false_eq_true, if_true, hdl1, hpml, hdl2, Except.map, List.map_cons, List.map_nil]
  rfl

/-- C10 witness: the hypotheses hold for a concrete announcement under the
all-404 oracle, and the conclusion follows. -/
theorem c10_double_404_reported_as_stored_witness :
    isFinancialAnnouncement (pyStrip "Result") (pyLower "Results") = true ∧
    ("x.pdf" : String) ≠ "" ∧
    parse_iso_datetime "2025-06-30T14:30:00" = .ok sampleFilingDate ∧
    envAll404.initOk = true ∧
    envAll404.pdfOnStore
      (generatePdfPath envAll404.now "500325" "2025-06-30T14:30:00" "HIGH") = false ∧
    (envAll404.http (bseAttachmentLive ++ "/" ++ "x.pdf") 0).status = 404 ∧
    (envAll404.http (bseAttachmentMoved ++ "/" ++ pyTake 4 "2025-06-30T14:30:00" ++ "/" ++
      pySlice 5 7 "2025-06-30T14:30:00" ++ "/" ++ "x.pdf") 0).status = 404 ∧
    (processAnnouncements envAll404
        [{ SCRIP_CD := some "500325", NEWS_DT := some "2025-06-30T14:30:00",
           CATEGORYNAME := some "Result", SLONGNAME := some "RIL",
           NEWSSUB := some "Results", ATTACHMENTNAME := some "x.pdf" }]).map
        (fun r => (r.1.map ProcessedData.attach, r.2)) =
      .ok ([some ⟨true, some "PDF Moved"⟩],
        [⟨"500325", sampleFilingDate, some "PDF Moved", true⟩]) :=
  ⟨by decide, by decide, rfl, rfl, rfl, rfl, rfl,
   c10_double_404_reported_as_stored envAll404 "500325" "2025-06-30T14:30:00" "Result"
     "RIL" "Results" "x.pdf" sampleFilingDate (by decide) (by decide) rfl rfl rfl rfl rfl⟩

/-! ## C2 — a failed PDF download aborts the batch -/

/-- C2: the claim says a single failed PDF download is contained and the
rest of the batch still completes; in the code the first
`download_and_store_pdf` call returns `None` after exhausting its retries,
and `process_announcements` immediately calls `.lower()` on it
(financial_data_processor.py:115), raising `AttributeError` out of the
batch — while the same remaining announcement alone processes fine. -/
theorem c2_failed_download_aborts_batch :
    downloadAndStorePdf envAllFail (bseAttachmentLive ++ "/" ++ "x.pdf")
      "500325" "2025-06-30T14:30:00" = none ∧
    processAnnouncements envAllFail [annWithAttachment, annPlain] =
      .error .noneLowerCrash ∧
    (processAnnouncements envAllFail [annPlain]).isOk = true :=
  ⟨rfl, rfl, rfl⟩

end HalalLens
